import Mathlib

/-!
Shallow embedding of `src/xefind/find.py` (the xefind availability checker).

Modelling conventions:
* MongoDB collections are lists of documents (structures below); `find` is
  `List.filter`, `find_one` is `List.find?` (first match in insertion order).
* Python dicts that are built or mutated by the code are association lists
  `List (String × α)` with `dictSet` implementing Python dict assignment
  (overwrite in place if the key exists, append otherwise) and `lookupD`
  implementing key lookup.
* Python exceptions (`ValueError`, `KeyError`) are `Except String`.
* `datetime` values are encoded as `Nat` in yyyymmdd form, which preserves
  the ordering used by the single `lte` comparison in the source.
* Python float formatting `"%.1f"` of `n / total * 100` is modelled as exact
  rational rounding of `1000 * n / total` to the nearest integer, ties to
  even; this agrees with the double computation on all inputs relevant here.
* The mutable module globals `LOCATIONS` and `SCIENCE_RUNS` are threaded as
  explicit state; functions that mutate them return the new state.
-/

/-- Generic association-list lookup, modelling Python `d.get(k)` / `d[k]`. -/
def lookupD {α : Type} (l : List (String × α)) (k : String) : Option α :=
  (l.find? (fun kv => kv.1 == k)).map (fun kv => kv.2)

/-- Python dict assignment `d[k] = v`: overwrite in place if present, else append. -/
def dictSet {α : Type} : List (String × α) → String → α → List (String × α)
  | [], k, v => [(k, v)]
  | (k1, v1) :: rest, k, v =>
    if k1 == k then (k1, v) :: rest else (k1, v1) :: dictSet rest k v

/-- One entry of a run document's `data` array. -/
structure DataEntry where
  dtype : String
  location : String
  lineage : String
deriving DecidableEq

/-- A document of the `runs` collection. -/
structure RunDoc where
  number : Int
  tags : List String
  source : String
  start : Nat
  data : List DataEntry
deriving DecidableEq

/-- A document of the `contexts` collection. -/
structure CtxDoc where
  name : String
  tag : String
  hashes : List (String × String)
  straxen : Option String
  strax : Option String
  cutax : Option String
deriving DecidableEq

/-- The two logical collections the script reads. -/
structure DB where
  contexts : List CtxDoc
  runs : List RunDoc
deriving DecidableEq

/-- The fixed table of recommended (context, environment) pairs, in the
Python dict's insertion order. -/
def RECOMMENDED : List (String × String) :=
  [("xenonnt_v14", "2024.01.1"),
   ("xenonnt_v13", "2023.11.1"),
   ("xenonnt_v12", "2023.10.1"),
   ("xenonnt_v11", "2023.07.1"),
   ("xenonnt_v8", "2022.06.3")]

/-- The fixed fallback version-triple table; note that it has no entry for
`xenonnt_v8`, exactly as in the source. -/
def ENV_VERSIONS : List (String × List (String × String)) :=
  [("xenonnt_v14",
    [("straxen_version", "2.2.0"), ("strax_version", "1.6.0"), ("cutax_version", "1.16.0")]),
   ("xenonnt_v13",
    [("straxen_version", "2.1.5"), ("strax_version", "1.5.4"), ("cutax_version", "1.15.5")]),
   ("xenonnt_v12",
    [("straxen_version", "2.1.4"), ("strax_version", "1.5.4"), ("cutax_version", "1.15.4")]),
   ("xenonnt_v11",
    [("straxen_version", "2.1.1"), ("strax_version", "1.5.2"), ("cutax_version", "1.15.1")])]

/-- Initial value of the mutable module-level `LOCATIONS` list. -/
def LOCATIONS : List String :=
  ["UC_DALI_USERDISK", "UC_MIDWAY_USERDISK"]

/-- Atomic conditions appearing in the science-run queries. -/
inductive AtomCond where
  | tagIs : String → AtomCond
  | sourceIs : String → AtomCond
  | startLe : Nat → AtomCond
deriving DecidableEq

/-- A top-level value of a science-run query dict: either an atomic
condition or a Mongo `$or` of flat conjunctions. -/
inductive TopCond where
  | atom : AtomCond → TopCond
  | orQ : List (List AtomCond) → TopCond
deriving DecidableEq

/-- A science-run query dict: keys paired with top-level conditions. -/
abbrev MQuery := List (String × TopCond)

/-- Evaluate an atomic condition against a run document. -/
def evalAtom (d : RunDoc) : AtomCond → Bool
  | .tagIs s => d.tags.contains s
  | .sourceIs s => d.source == s
  | .startLe n => Nat.ble d.start n

/-- Evaluate a top-level condition against a run document. -/
def evalTop (d : RunDoc) : TopCond → Bool
  | .atom a => evalAtom d a
  | .orQ qs => qs.any (fun fq => fq.all (evalAtom d))

/-- Evaluate a whole query dict (conjunction of its entries). -/
def evalMQuery (d : RunDoc) (q : MQuery) : Bool :=
  q.all (fun kv => evalTop d kv.2)

/-- Initial value of the mutable module-level `SCIENCE_RUNS` dict. -/
def SCIENCE_RUNS : List (String × MQuery) :=
  [("sr0", [("$or", TopCond.orQ
      [[AtomCond.tagIs "_sr0"],
       [AtomCond.sourceIs "th-232", AtomCond.startLe 20220801]])]),
   ("sr0_ted", [("tags.name", TopCond.atom (AtomCond.tagIs "_sr0_ted"))]),
   ("sr1", [("tags.name", TopCond.atom (AtomCond.tagIs "_sr1_preliminary"))])]

/-- Embedding of `get_runs_from_source`.  The first component of the result
is the returned run-number list; the second is the new state of the mutable
`SCIENCE_RUNS` table, since `query['source'] = source` mutates the shared
per-science-run dict in place.  An unknown science-run key raises `KeyError`
before any mutation, as in Python. -/
def get_runs_from_source (t : List (String × MQuery)) (db : DB)
    (science_run source : String) :
    Except String (List Int × List (String × MQuery)) :=
  match lookupD t science_run with
  | none => .error ("KeyError: " ++ science_run)
  | some q =>
    let q1 := dictSet q "source" (TopCond.atom (AtomCond.sourceIs source))
    let nums := (db.runs.filter (fun d => evalMQuery d q1)).map (fun d => d.number)
    .ok (nums, dictSet t science_run q1)

/-- Convert an `Except` to an `Option`, discarding the error message. -/
def exceptResult {α : Type} : Except String α → Option α
  | .ok a => some a
  | .error _ => none

/-- The run-number list returned by `get_runs_from_source`, if it did not
raise. -/
def getRunsFromSourceResult (t : List (String × MQuery)) (db : DB)
    (science_run source : String) : Option (List Int) :=
  (exceptResult (get_runs_from_source t db science_run source)).map (fun r => r.1)

/-- Replay a list of earlier `get_runs_from_source` calls against the mutable
science-run table, keeping only the table state.  A call that raises leaves
the table unchanged (in Python the `KeyError` fires before the mutation). -/
def applyPrior (db : DB) (t : List (String × MQuery))
    (prior : List (String × String)) : List (String × MQuery) :=
  prior.foldl
    (fun t p =>
      match get_runs_from_source t db p.1 p.2 with
      | .ok r => r.2
      | .error _ => t)
    t

/-- Split a char list at newline characters (helper for `pySplitlines`). -/
def splitLinesAux (cur : List Char) : List Char → List (List Char)
  | [] => [cur.reverse]
  | c :: cs =>
    if c = '\n' then cur.reverse :: splitLinesAux [] cs
    else splitLinesAux (c :: cur) cs

/-- Python `str.splitlines` restricted to ASCII newline: a trailing newline
produces no trailing empty line, and the empty string has no lines. -/
def pySplitlines (s : String) : List String :=
  let parts := (splitLinesAux [] s.data).map (fun cs => String.mk cs)
  if parts.getLast? = some "" then parts.dropLast else parts

/-- Python `str.isdigit`, restricted to ASCII: nonempty and all digits. -/
def pyIsDigit (s : String) : Bool :=
  !s.data.isEmpty && s.data.all Char.isDigit

/-- Value of `int(s)` for a string of digits. -/
def digitsVal (s : String) : Nat :=
  s.data.foldl (fun a c => 10 * a + (c.toNat - 48)) 0

/-- Embedding of `read_run_ids_from_file`.  The filesystem is a partial map
from paths to file contents; a missing file only prints a message and
returns the empty list. -/
def read_run_ids_from_file (fs : String → Option String) (filename : String) :
    List Int :=
  match fs filename with
  | none => []
  | some content =>
    ((pySplitlines content).filter pyIsDigit).map
      (fun s => (digitsVal s : Int))

/-- The `find_one` of the primary lineage lookup: first document in the
contexts collection matching `{name: context, tag: environment}`. -/
def findCtx (db : DB) (context env_version : String) : Option CtxDoc :=
  db.contexts.find? (fun d => d.name == context && d.tag == env_version)

/-- Embedding of `get_lineage_hash`: (hash for the data type, version dict
with keys `straxen_version`, `strax_version`, `cutax_version`), defaulting
missing version fields to `UNKNOWN`; `(none, [])` if no document matches. -/
def get_lineage_hash (db : DB) (context env_version data_type : String) :
    Option String × List (String × String) :=
  match findCtx db context env_version with
  | none => (none, [])
  | some d =>
    (lookupD d.hashes data_type,
     [("straxen_version", d.straxen.getD "UNKNOWN"),
      ("strax_version", d.strax.getD "UNKNOWN"),
      ("cutax_version", d.cutax.getD "UNKNOWN")])

/-- Field access used by the fallback version query `{**versions, name: c}`. -/
def ctxField (d : CtxDoc) (k : String) : Option String :=
  if k == "straxen_version" then d.straxen
  else if k == "strax_version" then d.strax
  else if k == "cutax_version" then d.cutax
  else none

/-- Whether a contexts document matches every key of a version dict. -/
def matchesVersions (d : CtxDoc) (versions : List (String × String)) : Bool :=
  versions.all (fun kv => ctxField d kv.1 == some kv.2)

/-- Embedding of `get_lineae_hash_from_version`: `find_one` keyed by the
version dict plus the context name; returns `none` when no document
matches, and raises `KeyError` when the matched document has no hash for
the data type (the source indexes `res` with square brackets). -/
def get_lineae_hash_from_version (db : DB) (context : String)
    (versions : List (String × String)) (data_type : String) :
    Except String (Option String) :=
  match db.contexts.find? (fun d => matchesVersions d versions && d.name == context) with
  | none => .ok none
  | some d =>
    match lookupD d.hashes data_type with
    | some h => .ok (some h)
    | none => .error ("KeyError: " ++ data_type)

/-- Python truthiness of a lineage hash: `None` and the empty string are
both falsy. -/
def truthyHash : Option String → Bool
  | none => false
  | some s => !s.isEmpty

/-- Round `1000 * n / total` to the nearest integer, ties to even: the
number of percent-tenths shown by the `%.1f` formatting. -/
def roundTenths (n total : Nat) : Nat :=
  let num := 1000 * n
  let q := num / total
  let r := num % total
  if 2 * r < total then q
  else if total < 2 * r then q + 1
  else if q % 2 = 0 then q else q + 1

/-- The formatted availability cell, modelling
`f"{n} ({n / total * 100:.1f}%)"`. -/
def availabilityCell (n total : Nat) : String :=
  toString n ++ " (" ++ toString (roundTenths n total / 10) ++ "." ++
    toString (roundTenths n total % 10) ++ "%)"

/-- Embedding of `get_runs_from_db`: numbers of runs in the id list with at
least one data entry matching the data type, lineage hash and (when the
location string is truthy) the location. -/
def get_runs_from_db (db : DB) (run_ids : List Int)
    (data_type lineage_hash location : String) : List Int :=
  (db.runs.filter (fun d =>
    run_ids.contains d.number &&
    d.data.any (fun e =>
      e.dtype == data_type && e.lineage == lineage_hash &&
      (if location == "" then true else e.location == location)))).map
    (fun d => d.number)

/-- Strip the `_version` suffix: `{k.split('_')[0]: v}`. -/
def stripVersions (versions : List (String × String)) :
    List (String × String) :=
  versions.map (fun kv => (((kv.1.splitOn "_").headD kv.1), kv.2))

/-- One row of the report, in the shape of the dict built per context. -/
structure RowDoc where
  context : String
  environment : String
  totalChecked : Nat
  lineageHash : String
  versions : List (String × String)
  cells : List (String × String)
deriving DecidableEq

/-- Build the report row for one resolved context, over the current state of
the locations list; location cells are dict entries, so a duplicated
location key overwrites in place. -/
def rowFor (db : DB) (data_type : String) (run_ids : List Int)
    (context env_version lineage_hash : String)
    (versions : List (String × String)) (locs : List String) : RowDoc :=
  { context := context
    environment := env_version
    totalChecked := run_ids.length
    lineageHash := lineage_hash
    versions := stripVersions versions
    cells := locs.foldl
      (fun cells loc =>
        dictSet cells loc
          (availabilityCell (get_runs_from_db db run_ids data_type lineage_hash loc).length
            run_ids.length))
      [] }

/-- The per-context resolution step of `check_runs_available`: primary
lookup, then — when the primary hash is falsy — the `ENV_VERSIONS[context]`
access (a `KeyError` when absent, as for `xenonnt_v8`) followed by the
fallback lookup.  `ok none` means the context is skipped with a printed
notice. -/
def contextStep (db : DB) (data_type context env_version : String) :
    Except String (Option (String × List (String × String))) :=
  let r := get_lineage_hash db context env_version data_type
  if truthyHash r.1 then .ok (some (r.1.getD "", r.2))
  else
    match lookupD ENV_VERSIONS context with
    | none => .error ("KeyError: " ++ context)
    | some vs =>
      match get_lineae_hash_from_version db context vs data_type with
      | .error msg => .error msg
      | .ok lh1 =>
        if truthyHash lh1 then .ok (some (lh1.getD "", vs)) else .ok none

/-- The context loop of `check_runs_available`, threading the mutable
`LOCATIONS` list: `locations = LOCATIONS` aliases the global, so the
`append` of the extra location mutates it once per iteration. -/
def checkGo (db : DB) (data_type : String) (run_ids : List Int)
    (extra_location : String) :
    List (String × String) → List String →
    Except String (List RowDoc × List String)
  | [], locs => .ok ([], locs)
  | (context, env_version) :: rest, locs =>
    match contextStep db data_type context env_version with
    | .error msg => .error msg
    | .ok res =>
      let locs1 := if extra_location == "" then locs else locs ++ [extra_location]
      match res with
      | none => checkGo db data_type run_ids extra_location rest locs1
      | some hv =>
        match checkGo db data_type run_ids extra_location rest locs1 with
        | .error msg => .error msg
        | .ok (docs, locsF) =>
          .ok (rowFor db data_type run_ids context env_version hv.1 hv.2 locs1 :: docs,
               locsF)

/-- Embedding of `check_runs_available`.  Takes the current state of the
global `LOCATIONS` list and returns the report rows together with the final
state of that list. -/
def check_runs_available (db : DB) (locs0 : List String)
    (data_type : String) (run_ids : List Int) (extra_location : String) :
    Except String (List RowDoc × List String) :=
  if run_ids.isEmpty then .error "No run_ids found"
  else checkGo db data_type run_ids extra_location RECOMMENDED locs0

/-- Contexts document resolving `xenonnt_v14` by the primary lookup with
peaklets hash `abc`. -/
def ctxV14 : CtxDoc :=
  { name := "xenonnt_v14", tag := "2024.01.1", hashes := [("peaklets", "abc")],
    straxen := some "2.2.0", strax := some "1.6.0", cutax := some "1.16.0" }

/-- Contexts document resolving `xenonnt_v8` by the primary lookup. -/
def ctxV8 : CtxDoc :=
  { name := "xenonnt_v8", tag := "2022.06.3", hashes := [("peaklets", "zzz")],
    straxen := some "1.0.0", strax := some "1.0.0", cutax := some "1.0.0" }

/-- Run with a peaklets entry for hash `abc` at UC_DALI_USERDISK. -/
def runWithAbc (n : Int) : RunDoc :=
  { number := n, tags := [], source := "none", start := 0,
    data := [{ dtype := "peaklets", location := "UC_DALI_USERDISK", lineage := "abc" }] }

/-- Run with no data entries. -/
def runBare (n : Int) : RunDoc :=
  { number := n, tags := [], source := "none", start := 0, data := [] }

/-- Demonstration database: `xenonnt_v14` and `xenonnt_v8` resolve by the
primary lookup, the other contexts fail both lookups and are skipped; runs
1 and 2 (of 1, 2, 3) carry peaklets data for hash `abc` at
UC_DALI_USERDISK. -/
def dbDemo : DB :=
  { contexts := [ctxV14, ctxV8],
    runs := [runWithAbc 1, runWithAbc 2, runBare 3] }

/-- Database with an empty contexts collection: every primary and fallback
lookup fails. -/
def dbEmptyCtx : DB := { contexts := [], runs := [] }

/-- Database where `xenonnt_v13` is resolvable only through the fallback
version-triple query (its tag does not match the recommended environment,
but its version fields match the `ENV_VERSIONS` entry). -/
def dbC7 : DB :=
  { contexts :=
      [{ name := "xenonnt_v13", tag := "old", hashes := [("peaklets", "h13")],
         straxen := some "2.1.5", strax := some "1.5.4", cutax := some "1.15.5" }],
    runs := [] }

/-- Database whose contexts collection holds only the `xenonnt_v14`
primary document. -/
def dbPrimaryOnly : DB := { contexts := [ctxV14], runs := [] }

/-- Same database extended with a decoy document that the fallback
version-triple query for `xenonnt_v14` would match (same name and version
fields, different tag and hash); the primary query answer is unchanged. -/
def dbWithDecoy : DB :=
  { contexts :=
      [ctxV14,
       { name := "xenonnt_v14", tag := "other", hashes := [("peaklets", "DECOY")],
         straxen := some "2.2.0", strax := some "1.6.0", cutax := some "1.16.0" }],
    runs := [] }

/-- Runs database exercising both branches of the sr0 predicate: run 101
matches via the `_sr0` tag, run 102 only via the th-232 early-start branch,
run 103 matches neither. -/
def dbBranches : DB :=
  { contexts := [],
    runs :=
      [{ number := 101, tags := ["_sr0"], source := "th-232", start := 20230101, data := [] },
       { number := 102, tags := [], source := "th-232", start := 20220315, data := [] },
       { number := 103, tags := [], source := "th-232", start := 20230101, data := [] }] }

/-- Filesystem with one file holding a signed-integer line and a digit
line. -/
def fsC4 : String → Option String :=
  fun p => if p == "runs.txt" then some "+5\n7" else none

/-- The UC_DALI_USERDISK cell of the `xenonnt_v14` row of the report for
data type peaklets and run ids 1, 2, 3 on the demonstration database. -/
def demoCell : Option String :=
  (exceptResult (check_runs_available dbDemo LOCATIONS "peaklets" [1, 2, 3] "")).bind
    (fun r =>
      (r.1.find? (fun d => d.context == "xenonnt_v14")).bind
        (fun d => lookupD d.cells "UC_DALI_USERDISK"))

/-- Whether an `Except` value is a success. -/
def exceptOk {α : Type} : Except String α → Bool
  | .ok _ => true
  | .error _ => false

/-- Whether a recommended context resolves to a row of the report (its
resolution step succeeds with a lineage hash). -/
def stepResolved (db : DB) (data_type context env_version : String) : Bool :=
  match contextStep db data_type context env_version with
  | .ok (some _) => true
  | _ => false

/-- Claim-side digit accumulator: consume remaining digits, fail on any
non-digit. -/
def digitAcc (acc : Nat) : List Char → Option Nat
  | [] => some acc
  | c :: cs => if c.isDigit then digitAcc (10 * acc + (c.toNat - 48)) cs else none

/-- Claim-side parser of a line made only of digits: its numeric value, or
`none` if the line is empty or holds any non-digit. -/
def digitLineVal : List Char → Option Nat
  | [] => none
  | c :: cs => if c.isDigit then digitAcc (c.toNat - 48) cs else none

/-- Claim-side notion of a line that is a valid integer: an optional sign
followed by at least one digit, with its integer value. -/
def validIntVal : List Char → Option Int
  | [] => none
  | c :: cs =>
    if c = '+' then (digitLineVal cs).map (fun n => (n : Int))
    else if c = '-' then (digitLineVal cs).map (fun n => -(n : Int))
    else (digitLineVal (c :: cs)).map (fun n => (n : Int))

/-- The input resolver as claim C4 words it: keep exactly the lines that
are valid integers, converted, in order, duplicates preserved. -/
def claimedReadRunIds (lines : List String) : List Int :=
  lines.filterMap (fun s => validIntVal s.data)

/-- The amended input resolver: keep exactly the lines made only of digits,
converted, in order, duplicates preserved. -/
def amendedReadRunIds (lines : List String) : List Int :=
  lines.filterMap (fun s => (digitLineVal s.data).map (fun n => (n : Int)))

/-- How an entry of the mutable science-run table can relate to its pristine
value: both absent, or equal, or differing only by a written `source` key. -/
def entryRel : Option MQuery → Option MQuery → Prop :=
  fun o0 o =>
    (o0 = none ∧ o = none) ∨
    (∃ q0, o0 = some q0 ∧
      (o = some q0 ∨ ∃ c, o = some (dictSet q0 "source" c)))

/-- Invariant of the mutable science-run table: every entry relates to its
pristine `SCIENCE_RUNS` value by `entryRel`. -/
def tableRel (t : List (String × MQuery)) : Prop :=
  ∀ s, entryRel (lookupD SCIENCE_RUNS s) (lookupD t s)

/-- C5: with an empty run id list, `check_runs_available` raises its
explicit `ValueError` immediately; the result is the same error for every
database, every locations state, every data type and every extra location,
so no query is issued and no partial report is produced. -/
theorem spec_c5_empty_run_ids :
    ∀ (db : DB) (locs0 : List String) (data_type extra_location : String),
      check_runs_available db locs0 data_type [] extra_location =
        .error "No run_ids found" :=
  fun _ _ _ _ => rfl

/-- C9: for a path with no file behind it, `read_run_ids_from_file`
returns the empty list and does not raise (the embedding is total; the only
other effect in the source is a printed message). -/
theorem spec_c9_missing_file :
    ∀ (fs : String → Option String) (filename : String),
      fs filename = none → read_run_ids_from_file fs filename = [] := by
  intro fs filename h
  simp [read_run_ids_from_file, h]

/-- Witness for C9 at a concrete empty filesystem. -/
theorem spec_c9_missing_file_witness :
    read_run_ids_from_file (fun _ => none) "runs.txt" = [] :=
  spec_c9_missing_file (fun _ => none) "runs.txt" rfl

/-- C1 counterexample: on a database where no context resolves, the claim
predicts an empty report with every context skipped, but the run terminates
with a `KeyError` as soon as the loop reaches `xenonnt_v8`, which has no
`ENV_VERSIONS` entry; so a resolution failure can terminate the whole run. -/
theorem spec_c1_counterexample :
    check_runs_available dbEmptyCtx LOCATIONS "peaklets" [1] "" =
      .error "KeyError: xenonnt_v8" :=
  rfl

/-- C2: evaluating `check_runs_available` with extra location `EXTRA` on
the demonstration database shows the global `LOCATIONS` table is not left
unchanged: the per-iteration `locations.append(extra_location)` mutates the
shared list once per recommended context, so the table ends with five
copies of the extra location and later contexts are computed over lists
holding it more than once. -/
theorem spec_c2_locations_mutation :
    (exceptResult (check_runs_available dbDemo LOCATIONS "peaklets" [1, 2, 3] "EXTRA")).map
        (fun r => r.2) =
      some ["UC_DALI_USERDISK", "UC_MIDWAY_USERDISK",
            "EXTRA", "EXTRA", "EXTRA", "EXTRA", "EXTRA"] :=
  rfl

/-- C3: every availability cell is the matched count followed by the
percentage of the total rendered with exactly one digit after the decimal
point; and on the demonstration database with run ids 1, 2, 3 and two of
the three runs present at UC_DALI_USERDISK, the cell of the resolved
context reads `2 (66.7%)`. -/
theorem spec_c3_availability_cell :
    (∀ n total : Nat, 0 < total →
      ∃ a b : Nat, b < 10 ∧
        availabilityCell n total =
          toString n ++ " (" ++ toString a ++ "." ++ toString b ++ "%)" ∧
        10 * a + b = roundTenths n total)
    ∧ demoCell = some "2 (66.7%)" := by
  constructor
  · intro n total _
    exact ⟨roundTenths n total / 10, roundTenths n total % 10,
      Nat.mod_lt _ (by decide), rfl, Nat.div_add_mod _ 10⟩
  · rfl

/-- Witness for C3 at the concrete cell of 2 matches out of 3. -/
theorem spec_c3_availability_cell_witness :
    ∃ a b : Nat, b < 10 ∧
      availabilityCell 2 3 =
        toString 2 ++ " (" ++ toString a ++ "." ++ toString b ++ "%)" ∧
      10 * a + b = roundTenths 2 3 :=
  spec_c3_availability_cell.1 2 3 (by decide)

/-- C4 counterexample: the line `+5` is a valid integer (value 5), but
`read_run_ids_from_file` drops it because `str.isdigit` rejects the sign,
so the function does not return every valid-integer line converted. -/
theorem spec_c4_counterexample :
    read_run_ids_from_file fsC4 "runs.txt" = [7] ∧
    claimedReadRunIds (pySplitlines "+5\n7") = [5, 7] ∧
    read_run_ids_from_file fsC4 "runs.txt" ≠
      claimedReadRunIds (pySplitlines "+5\n7") := by
  refine ⟨rfl, rfl, ?_⟩
  intro h
  have h7 : read_run_ids_from_file fsC4 "runs.txt" = [7] := rfl
  have h57 : claimedReadRunIds (pySplitlines "+5\n7") = [5, 7] := rfl
  rw [h7, h57] at h
  exact absurd h (by decide)

theorem digitAcc_spec (cs : List Char) :
    ∀ acc : Nat,
      digitAcc acc cs =
        if cs.all Char.isDigit then
          some (cs.foldl (fun a c => 10 * a + (c.toNat - 48)) acc)
        else none := by
  induction cs with
  | nil => intro acc; simp [digitAcc]
  | cons c cs ih =>
    intro acc
    by_cases hc : c.isDigit
    · simp [digitAcc, hc, ih]
    · simp [digitAcc, hc]

theorem digitLineVal_string (s : String) :
    (digitLineVal s.data).map (fun n => (n : Int)) =
      if pyIsDigit s then some ((digitsVal s : Int)) else none := by
  have hmain : ∀ cs : List Char,
      (digitLineVal cs).map (fun n => (n : Int)) =
        if (!cs.isEmpty && cs.all Char.isDigit) then
          some ((cs.foldl (fun a c => 10 * a + (c.toNat - 48)) 0 : Nat) : Int)
        else none := by
    intro cs
    cases cs with
    | nil => rfl
    | cons c cs =>
      rw [digitLineVal]
      by_cases hc : c.isDigit
      · rw [if_pos hc, digitAcc_spec]
        by_cases hall : cs.all Char.isDigit
        · rw [if_pos hall, if_pos (by simp [hc, hall])]
          simp
        · rw [if_neg hall, if_neg (by simp [hc, hall])]
          rfl
      · rw [if_neg hc, if_neg (by simp [hc])]
        rfl
  rw [pyIsDigit, digitsVal]
  exact hmain s.data

theorem filter_map_eq_filterMap {α β : Type} (p : α → Bool) (f : α → β)
    (l : List α) :
    (l.filter p).map f = l.filterMap (fun a => if p a then some (f a) else none) := by
  induction l with
  | nil => rfl
  | cons a l ih =>
    by_cases h : p a
    · simp [h, ih]
    · simp [h, ih]

/-- C4 amended: for every existing file, `read_run_ids_from_file` returns
exactly those lines made only of digit characters (hence non-negative),
each converted to its integer value, in file order with duplicates
preserved; every other line — including signed numbers that `int()` would
accept — is silently dropped. -/
theorem spec_c4_amended :
    ∀ (fs : String → Option String) (filename content : String),
      fs filename = some content →
      read_run_ids_from_file fs filename =
        amendedReadRunIds (pySplitlines content) := by
  intro fs filename content h
  simp only [read_run_ids_from_file, h, amendedReadRunIds]
  rw [filter_map_eq_filterMap]
  have helem : ∀ s : String,
      (if pyIsDigit s then some ((digitsVal s : Int)) else none) =
        (digitLineVal s.data).map (fun n => (n : Int)) :=
    fun s => (digitLineVal_string s).symm
  simp only [helem]

/-- Witness for C4 amended on the concrete two-line file. -/
theorem spec_c4_amended_witness :
    read_run_ids_from_file fsC4 "runs.txt" =
      amendedReadRunIds (pySplitlines "+5\n7") :=
  spec_c4_amended fsC4 "runs.txt" "+5\n7" rfl

theorem checkGo_ok (db : DB) (data_type : String) (run_ids : List Int)
    (extra_location : String) :
    ∀ (ctxs : List (String × String)) (locs : List String),
      ctxs.all (fun p => exceptOk (contextStep db data_type p.1 p.2)) = true →
      ∃ docs locsF,
        checkGo db data_type run_ids extra_location ctxs locs = .ok (docs, locsF) ∧
        docs.map (fun d => d.context) =
          (ctxs.filter (fun p => stepResolved db data_type p.1 p.2)).map
            (fun p => p.1) := by
  intro ctxs
  induction ctxs with
  | nil => intro locs _; exact ⟨[], locs, rfl, rfl⟩
  | cons p rest ih =>
    intro locs hall
    obtain ⟨c, e⟩ := p
    rw [List.all_cons, Bool.and_eq_true] at hall
    obtain ⟨h1, h2⟩ := hall
    cases hstep : contextStep db data_type c e with
    | error msg =>
      rw [hstep] at h1
      exact absurd h1 (by simp [exceptOk])
    | ok res =>
      cases res with
      | none =>
        obtain ⟨docs, locsF, hgo, hmap⟩ :=
          ih (if extra_location == "" then locs else locs ++ [extra_location]) h2
        refine ⟨docs, locsF, ?_, ?_⟩
        · simp only [checkGo, hstep]
          exact hgo
        · have hres : stepResolved db data_type c e = false := by
            simp [stepResolved, hstep]
          simp [List.filter_cons, hres, hmap]
      | some hv =>
        obtain ⟨docs, locsF, hgo, hmap⟩ :=
          ih (if extra_location == "" then locs else locs ++ [extra_location]) h2
        refine ⟨rowFor db data_type run_ids c e hv.1 hv.2
            (if extra_location == "" then locs else locs ++ [extra_location]) :: docs,
          locsF, ?_, ?_⟩
        · simp only [checkGo, hstep, hgo]
        · have hres : stepResolved db data_type c e = true := by
            simp [stepResolved, hstep]
          simp [List.filter_cons, hres, hmap, rowFor]

/-- C1 amended: with a non-empty run id list, as long as no recommended
context's resolution step raises (in particular `xenonnt_v8`, which has no
`ENV_VERSIONS` entry, must resolve by the primary lookup, and no fallback
query may return a document lacking the data type), every context whose
hash stays unresolved is skipped with only a printed notice and the report
contains exactly the resolved contexts in table order; but a raised step —
see the counterexample — terminates the whole run. -/
theorem spec_c1_amended :
    ∀ (db : DB) (data_type : String) (run_ids : List Int)
      (extra_location : String) (locs0 : List String),
      run_ids ≠ [] →
      RECOMMENDED.all (fun p => exceptOk (contextStep db data_type p.1 p.2)) = true →
      ∃ docs locsF,
        check_runs_available db locs0 data_type run_ids extra_location =
          .ok (docs, locsF) ∧
        docs.map (fun d => d.context) =
          (RECOMMENDED.filter (fun p => stepResolved db data_type p.1 p.2)).map
            (fun p => p.1) := by
  intro db data_type run_ids extra_location locs0 hne hall
  have hemp : run_ids.isEmpty = false := by
    cases run_ids with
    | nil => exact absurd rfl hne
    | cons a l => rfl
  simp only [check_runs_available, hemp, Bool.false_eq_true, if_false]
  exact checkGo_ok db data_type run_ids extra_location RECOMMENDED locs0 hall

/-- Witness for C1 amended on the demonstration database, where exactly
`xenonnt_v14` and `xenonnt_v8` resolve. -/
theorem spec_c1_amended_witness :
    ∃ docs locsF,
      check_runs_available dbDemo LOCATIONS "peaklets" [1] "" = .ok (docs, locsF) ∧
      docs.map (fun d => d.context) =
        (RECOMMENDED.filter (fun p => stepResolved dbDemo "peaklets" p.1 p.2)).map
          (fun p => p.1) :=
  spec_c1_amended dbDemo "peaklets" [1] "" LOCATIONS (by decide) rfl

/-- C7: when the primary lookup yields no (truthy) hash for a context, the
versions are overwritten with the `ENV_VERSIONS` entry before the fallback
lookup, so a context resolved only by the fallback reports the
hand-maintained triple — not database-supplied versions — and its report
row carries that triple with the `_version` suffix stripped from each
key. -/
theorem spec_c7_fallback_versions :
    ∀ (db : DB) (data_type context env_version : String)
      (vs : List (String × String)) (h : String)
      (run_ids : List Int) (locs : List String),
      truthyHash (get_lineage_hash db context env_version data_type).1 = false →
      lookupD ENV_VERSIONS context = some vs →
      get_lineae_hash_from_version db context vs data_type = .ok (some h) →
      h.isEmpty = false →
      contextStep db data_type context env_version = .ok (some (h, vs)) ∧
      (rowFor db data_type run_ids context env_version h vs locs).versions =
        stripVersions vs := by
  intro db data_type c e vs h run_ids locs h1 h2 h3 h4
  refine ⟨?_, rfl⟩
  simp only [contextStep, h1, h2, h3, Bool.false_eq_true, if_false]
  simp [truthyHash, h4]

/-- Witness for C7: `xenonnt_v13` resolvable only through the fallback. -/
theorem spec_c7_fallback_versions_witness :
    contextStep dbC7 "peaklets" "xenonnt_v13" "2023.11.1" =
      .ok (some ("h13",
        [("straxen_version", "2.1.5"), ("strax_version", "1.5.4"),
         ("cutax_version", "1.15.5")])) ∧
    (rowFor dbC7 "peaklets" [1] "xenonnt_v13" "2023.11.1" "h13"
        [("straxen_version", "2.1.5"), ("strax_version", "1.5.4"),
         ("cutax_version", "1.15.5")] LOCATIONS).versions =
      stripVersions
        [("straxen_version", "2.1.5"), ("strax_version", "1.5.4"),
         ("cutax_version", "1.15.5")] :=
  spec_c7_fallback_versions dbC7 "peaklets" "xenonnt_v13" "2023.11.1"
    [("straxen_version", "2.1.5"), ("strax_version", "1.5.4"),
     ("cutax_version", "1.15.5")] "h13" [1] LOCATIONS rfl rfl rfl rfl

/-- C8: when the primary (name, tag) lookup yields a lineage hash, the
resolution step returns that hash with the versions of the primary
document, and its outcome is unchanged under any modification of the
database that preserves the primary lookup answer — in particular under
changes to what the fallback version-triple query would return, so the
fallback is never consulted. -/
theorem spec_c8_primary_short_circuit :
    ∀ (db db2 : DB) (data_type context env_version h : String)
      (vs : List (String × String)),
      findCtx db context env_version = findCtx db2 context env_version →
      get_lineage_hash db context env_version data_type = (some h, vs) →
      h.isEmpty = false →
      contextStep db data_type context env_version = .ok (some (h, vs)) ∧
      contextStep db2 data_type context env_version = .ok (some (h, vs)) := by
  intro db db2 data_type c e h vs hfc hgl hne
  have hgl2 : get_lineage_hash db2 c e data_type = (some h, vs) := by
    simp only [get_lineage_hash] at hgl ⊢
    rw [← hfc]
    exact hgl
  constructor
  · simp only [contextStep, hgl]
    simp [truthyHash, hne]
  · simp only [contextStep, hgl2]
    simp [truthyHash, hne]

/-- Witness for C8: adding a decoy document that only the fallback query
would match leaves the resolution of `xenonnt_v14` unchanged. -/
theorem spec_c8_primary_short_circuit_witness :
    contextStep dbPrimaryOnly "peaklets" "xenonnt_v14" "2024.01.1" =
      .ok (some ("abc",
        [("straxen_version", "2.2.0"), ("strax_version", "1.6.0"),
         ("cutax_version", "1.16.0")])) ∧
    contextStep dbWithDecoy "peaklets" "xenonnt_v14" "2024.01.1" =
      .ok (some ("abc",
        [("straxen_version", "2.2.0"), ("strax_version", "1.6.0"),
         ("cutax_version", "1.16.0")])) :=
  spec_c8_primary_short_circuit dbPrimaryOnly dbWithDecoy "peaklets"
    "xenonnt_v14" "2024.01.1" "abc"
    [("straxen_version", "2.2.0"), ("strax_version", "1.6.0"),
     ("cutax_version", "1.16.0")] rfl rfl rfl

theorem lookupD_dictSet_self {α : Type} (l : List (String × α)) (k : String)
    (v : α) : lookupD (dictSet l k v) k = some v := by
  induction l with
  | nil => simp [dictSet, lookupD]
  | cons kv rest ih =>
    obtain ⟨k1, v1⟩ := kv
    by_cases h : (k1 == k) = true
    · simp [dictSet, h, lookupD]
    · have h2 : (k1 == k) = false := by simpa using h
      simp only [dictSet, h2, Bool.false_eq_true, if_false, lookupD]
      rw [List.find?_cons_of_neg _ (by simp [h2])]
      simpa [lookupD] using ih

theorem lookupD_dictSet_ne {α : Type} (l : List (String × α)) (k k2 : String)
    (v : α) (h : (k == k2) = false) :
    lookupD (dictSet l k v) k2 = lookupD l k2 := by
  induction l with
  | nil => simp [dictSet, lookupD, h]
  | cons kv rest ih =>
    obtain ⟨k1, v1⟩ := kv
    by_cases h1 : (k1 == k) = true
    · have hk1 : k1 = k := by simpa using h1
      subst hk1
      simp [dictSet, lookupD, h]
    · have h2 : (k1 == k) = false := by simpa using h1
      by_cases h3 : (k1 == k2) = true
      · simp [dictSet, h2, lookupD, h3]
      · have h4 : (k1 == k2) = false := by simpa using h3
        simp only [dictSet, h2, Bool.false_eq_true, if_false, lookupD]
        rw [List.find?_cons_of_neg _ (by simp [h4]),
          List.find?_cons_of_neg _ (by simp [h4])]
        simpa [lookupD] using ih

theorem dictSet_dictSet {α : Type} (l : List (String × α)) (k : String)
    (a b : α) : dictSet (dictSet l k a) k b = dictSet l k b := by
  induction l with
  | nil => simp [dictSet]
  | cons kv rest ih =>
    obtain ⟨k1, v1⟩ := kv
    by_cases h : (k1 == k) = true
    · simp [dictSet, h]
    · have h2 : (k1 == k) = false := by simpa using h
      simp [dictSet, h2, ih]

theorem tableRel_init : tableRel SCIENCE_RUNS := by
  intro s
  cases h : lookupD SCIENCE_RUNS s with
  | none => exact Or.inl ⟨rfl, rfl⟩
  | some q => exact Or.inr ⟨q, rfl, Or.inl rfl⟩

theorem tableRel_step (db : DB) (t : List (String × MQuery))
    (p : String × String) (ht : tableRel t) :
    tableRel
      (match get_runs_from_source t db p.1 p.2 with
       | .ok r => r.2
       | .error _ => t) := by
  cases hq : lookupD t p.1 with
  | none =>
    simp only [get_runs_from_source, hq]
    exact ht
  | some q =>
    simp only [get_runs_from_source, hq]
    intro s
    by_cases hs : (p.1 == s) = true
    · have hps : p.1 = s := by simpa using hs
      subst hps
      rw [lookupD_dictSet_self]
      rcases ht p.1 with ⟨h0, hend⟩ | ⟨q0, h0, hcase⟩
      · rw [hend] at hq
        cases hq
      · refine Or.inr ⟨q0, h0, Or.inr
          ⟨TopCond.atom (AtomCond.sourceIs p.2), ?_⟩⟩
        rcases hcase with hq0 | ⟨c2, hq2⟩
        · rw [hq] at hq0
          cases hq0
          rfl
        · rw [hq] at hq2
          cases hq2
          rw [dictSet_dictSet]
    · have hs2 : (p.1 == s) = false := by simpa using hs
      rw [lookupD_dictSet_ne _ _ _ _ hs2]
      exact ht s

theorem tableRel_applyPrior (db : DB) (prior : List (String × String)) :
    ∀ t, tableRel t → tableRel (applyPrior db t prior) := by
  induction prior with
  | nil => intro t ht; exact ht
  | cons p ps ih =>
    intro t ht
    simp only [applyPrior, List.foldl_cons]
    have hstep := tableRel_step db t p ht
    have := ih _ hstep
    simpa [applyPrior] using this

theorem result_of_tableRel (db : DB) (t : List (String × MQuery))
    (ht : tableRel t) (science_run source : String) :
    getRunsFromSourceResult t db science_run source =
      getRunsFromSourceResult SCIENCE_RUNS db science_run source := by
  rcases ht science_run with ⟨h0, h1⟩ | ⟨q0, h0, hcase⟩
  · simp [getRunsFromSourceResult, get_runs_from_source, h0, h1, exceptResult]
  · rcases hcase with h1 | ⟨c, h1⟩
    · simp [getRunsFromSourceResult, get_runs_from_source, h0, h1, exceptResult]
    · simp [getRunsFromSourceResult, get_runs_from_source, h0, h1,
        exceptResult, dictSet_dictSet]

/-- C10: the run-number list returned by `get_runs_from_source` depends
only on its two arguments and the database: although each call writes the
`source` key into the shared science-run table, any sequence of earlier
calls leaves the call's result identical to the result on the pristine
table, because the written key is overwritten again each time the query is
built and the base predicate keys are never touched. -/
theorem spec_c10_no_state_leak :
    ∀ (db : DB) (prior : List (String × String)) (science_run source : String),
      getRunsFromSourceResult (applyPrior db SCIENCE_RUNS prior) db
          science_run source =
        getRunsFromSourceResult SCIENCE_RUNS db science_run source :=
  fun db prior science_run source =>
    result_of_tableRel db (applyPrior db SCIENCE_RUNS prior)
      (tableRel_applyPrior db prior SCIENCE_RUNS tableRel_init)
      science_run source

theorem getRunsFromSourceResult_eq (t : List (String × MQuery)) (db : DB)
    (science_run source : String) (q : MQuery)
    (hq : lookupD t science_run = some q) :
    getRunsFromSourceResult t db science_run source =
      some ((db.runs.filter (fun d =>
        evalMQuery d
          (dictSet q "source" (TopCond.atom (AtomCond.sourceIs source))))).map
        (fun d => d.number)) := by
  simp [getRunsFromSourceResult, get_runs_from_source, hq, exceptResult]

/-- C6: on the pristine table, `get_runs_from_source` filters the runs
collection by the fixed science-run predicate conjoined with an exact
top-level source match and returns only the run numbers; for sr0 the
predicate is the OR of the `_sr0` tag branch and the branch admitting
th-232 runs started on or before 2022-08-01, and on a concrete database
both sr0 branches admit a run. -/
theorem spec_c6_source_query :
    (∀ (db : DB) (source : String),
      getRunsFromSourceResult SCIENCE_RUNS db "sr0" source =
        some ((db.runs.filter (fun d =>
          (d.tags.contains "_sr0" ||
            (d.source == "th-232" && Nat.ble d.start 20220801)) &&
          d.source == source)).map (fun d => d.number)) ∧
      getRunsFromSourceResult SCIENCE_RUNS db "sr0_ted" source =
        some ((db.runs.filter (fun d =>
          d.tags.contains "_sr0_ted" && d.source == source)).map
          (fun d => d.number)) ∧
      getRunsFromSourceResult SCIENCE_RUNS db "sr1" source =
        some ((db.runs.filter (fun d =>
          d.tags.contains "_sr1_preliminary" && d.source == source)).map
          (fun d => d.number)))
    ∧ getRunsFromSourceResult SCIENCE_RUNS dbBranches "sr0" "th-232" =
        some [101, 102] := by
  constructor
  · intro db source
    refine ⟨?_, ?_, ?_⟩
    · rw [getRunsFromSourceResult_eq SCIENCE_RUNS db "sr0" source
        [("$or", TopCond.orQ
          [[AtomCond.tagIs "_sr0"],
           [AtomCond.sourceIs "th-232", AtomCond.startLe 20220801]])] rfl]
      have hp : (fun d => evalMQuery d
          (dictSet
            [("$or", TopCond.orQ
              [[AtomCond.tagIs "_sr0"],
               [AtomCond.sourceIs "th-232", AtomCond.startLe 20220801]])]
            "source" (TopCond.atom (AtomCond.sourceIs source)))) =
          (fun d : RunDoc =>
            (d.tags.contains "_sr0" ||
              (d.source == "th-232" && Nat.ble d.start 20220801)) &&
            d.source == source) := by
        funext d
        simp [dictSet, evalMQuery, evalTop, evalAtom]
      rw [hp]
    · rw [getRunsFromSourceResult_eq SCIENCE_RUNS db "sr0_ted" source
        [("tags.name", TopCond.atom (AtomCond.tagIs "_sr0_ted"))] rfl]
      have hp : (fun d => evalMQuery d
          (dictSet [("tags.name", TopCond.atom (AtomCond.tagIs "_sr0_ted"))]
            "source" (TopCond.atom (AtomCond.sourceIs source)))) =
          (fun d : RunDoc =>
            d.tags.contains "_sr0_ted" && d.source == source) := by
        funext d
        simp [dictSet, evalMQuery, evalTop, evalAtom]
      rw [hp]
    · rw [getRunsFromSourceResult_eq SCIENCE_RUNS db "sr1" source
        [("tags.name", TopCond.atom (AtomCond.tagIs "_sr1_preliminary"))] rfl]
      have hp : (fun d => evalMQuery d
          (dictSet
            [("tags.name", TopCond.atom (AtomCond.tagIs "_sr1_preliminary"))]
            "source" (TopCond.atom (AtomCond.sourceIs source)))) =
          (fun d : RunDoc =>
            d.tags.contains "_sr1_preliminary" && d.source == source) := by
        funext d
        simp [dictSet, evalMQuery, evalTop, evalAtom]
      rw [hp]
  · rfl
